import Mathlib

/-!
Verification of the selection logic of react-native-paper-select.

The development shallowly embeds the JavaScript values the component
manipulates (an inductive type of JS values, with explicit reference
identities for objects and arrays so that strict equality is reference
equality), the helper functions of src/unnamed/part_005 (the current
util.ts: optionCompare, objectGetProperty, defaultValueFn, defaultLabelFn)
together with the shallowEqualObjects function of the shallow-equal npm
dependency they call, and the state transitions of the PaperSelect
component of src/src/PaperSelect.tsx (select, deselect, clearSelected and
the assertSingle / assertMulti prop guards).

Modelling conventions:
- JS numbers are modelled as integers plus a distinguished NaN value; the
  component performs no arithmetic on options, so fractional values never
  matter, and numeric string parsing is modelled for integer literals.
- A thrown TypeError is modelled by the threw flag of a step result.
- React useState updates are modelled by explicit state passing; the calls
  field of a step result records the arguments of the onSelection
  invocations the transition performs, in order.
-/

namespace PaperSelectModel

/-- Model of the JavaScript values handled by the component: primitives,
plain objects (a reference identity plus own enumerable fields in order)
and arrays (a reference identity plus elements). NaN is its own constructor
so that numeric equality can be modelled faithfully. -/
inductive JSValue where
  | undefined
  | null
  | bool (b : Bool)
  | num (n : Int)
  | nan
  | str (s : String)
  | obj (ref : Nat) (fields : List (String × JSValue))
  | arr (ref : Nat) (elems : List JSValue)
deriving Inhabited

def typeUndefined : String := "undefined"

def typeObject : String := "object"

def typeBoolean : String := "boolean"

def typeNumber : String := "number"

def typeString : String := "string"

/-- Models the JavaScript typeof operator on the modelled values (typeof
null is "object", as in JS). -/
def jsTypeof : JSValue → String
  | .undefined => typeUndefined
  | .null => typeObject
  | .bool _ => typeBoolean
  | .num _ => typeNumber
  | .nan => typeNumber
  | .str _ => typeString
  | .obj _ _ => typeObject
  | .arr _ _ => typeObject

/-- Strict-equality test against the undefined value (JS x === undefined). -/
def isUndefined : JSValue → Bool
  | .undefined => true
  | _ => false

/-- Strict-equality test against null (JS x === null). -/
def isNull : JSValue → Bool
  | .null => true
  | _ => false

/-- Whether a value is null or undefined (the values the JS ?? and ?.
operators treat specially). -/
def isNullish (v : JSValue) : Bool := isUndefined v || isNull v

/-- Models Array.isArray. -/
def isArray : JSValue → Bool
  | .arr _ _ => true
  | _ => false

/-- Whether the value is an object or an array, i.e. a reference value. -/
def isRefVal : JSValue → Bool
  | .obj _ _ => true
  | .arr _ _ => true
  | _ => false

/-- Models JavaScript truthiness: false, 0, NaN, the empty string, null and
undefined are falsy, everything else (including every object and array) is
truthy. -/
def jsTruthy : JSValue → Bool
  | .undefined => false
  | .null => false
  | .bool b => b
  | .num n => !(n == 0)
  | .nan => false
  | .str s => !(s == "")
  | .obj _ _ => true
  | .arr _ _ => true

/-- The separator of Array.prototype.join / Array.prototype.toString. -/
def commaStr : String := ","

/-- Models Array.prototype.join with the comma separator (the join
performed by Array.prototype.toString), given the already stringified
elements. -/
def joinComma : List String → String
  | [] => ""
  | [s] => s
  | s :: rest => s ++ commaStr ++ joinComma rest

mutual

/-- Models the JavaScript String(x) coercion on the modelled values. Plain
objects stringify to "[object Object]"; arrays stringify to their elements
joined by commas, with null and undefined elements contributing the empty
string. -/
def jsToString : JSValue → String
  | .undefined => typeUndefined
  | .null => "null"
  | .bool true => "true"
  | .bool false => "false"
  | .num n => toString n
  | .nan => "NaN"
  | .str s => s
  | .obj _ _ => "[object Object]"
  | .arr _ es => joinComma (arrStrings es)

/-- Stringifies the elements of an array for Array.prototype.toString: null
and undefined become the empty string, other elements are stringified
recursively. -/
def arrStrings : List JSValue → List String
  | [] => []
  | .undefined :: rest => "" :: arrStrings rest
  | .null :: rest => "" :: arrStrings rest
  | v :: rest => jsToString v :: arrStrings rest

end

/-- Models the JavaScript ToNumber coercion of a string, restricted to the
integer literals the component can meet: surrounding whitespace is trimmed,
the empty string converts to 0, integer numerals convert to their value and
everything else to NaN (returned as none). -/
def strToNumber (s : String) : Option Int :=
  let t := s.trim
  if t == "" then some 0 else t.toInt?

/-- Reference equality of objects and arrays (JS === on two objects). -/
def sameObject : JSValue → JSValue → Bool
  | .obj r _, .obj s _ => r == s
  | .arr r _, .arr s _ => r == s
  | _, _ => false

/-- Models JavaScript strict equality === on the modelled values: no
coercions, NaN is not equal to itself, objects and arrays compare by
reference. -/
def strictEq : JSValue → JSValue → Bool
  | .undefined, .undefined => true
  | .null, .null => true
  | .nan, _ => false
  | _, .nan => false
  | .num n, .num m => n == m
  | .str s, .str t => s == t
  | .bool b, .bool c => b == c
  | .obj r fs, b => sameObject (.obj r fs) b
  | .arr r es, b => sameObject (.arr r es) b
  | _, _ => false

/-- The ToPrimitive step of loose equality for plain objects and arrays:
with no overridden valueOf they convert through toString. Other values are
returned unchanged. -/
def toPrimForEq (v : JSValue) : JSValue :=
  match v with
  | .obj r fs => .str (jsToString (.obj r fs))
  | .arr r es => .str (jsToString (.arr r es))
  | x => x

/-- Loose equality on primitives after ToPrimitive, per the Abstract
Equality Comparison: NaN equals nothing, numbers and strings compare after
ToNumber of the string, booleans convert to numbers. -/
def primLooseEq : JSValue → JSValue → Bool
  | .nan, _ => false
  | _, .nan => false
  | .num n, .num m => n == m
  | .str s, .str t => s == t
  | .bool b, .bool c => b == c
  | .num n, .str s => strToNumber s == some n
  | .str s, .num n => strToNumber s == some n
  | .bool b, .num n => (if b then (1 : Int) else 0) == n
  | .num n, .bool b => (if b then (1 : Int) else 0) == n
  | .bool b, .str s => strToNumber s == some (if b then (1 : Int) else 0)
  | .str s, .bool b => strToNumber s == some (if b then (1 : Int) else 0)
  | _, _ => false

/-- Models JavaScript loose equality ==: null and undefined are equal to
each other and to nothing else, two reference values compare by reference,
and a reference value compares with a primitive through ToPrimitive. -/
def looseEq (a b : JSValue) : Bool :=
  if isNullish a || isNullish b then isNullish a && isNullish b
  else if isRefVal a && isRefVal b then sameObject a b
  else primLooseEq (toPrimForEq a) (toPrimForEq b)

/-- Own enumerable keys of a value, as produced by Object.keys: field names
for objects, the decimal index strings for arrays, nothing for primitives
(shallowEqualObjects only ever receives values of typeof "object"). -/
def jsKeys : JSValue → List String
  | .obj _ fs => fs.map Prod.fst
  | .arr _ es => (List.range es.length).map (fun i => toString i)
  | _ => []

/-- Property lookup v[k] on the modelled values; absent keys read as
undefined. -/
def jsGet : JSValue → String → JSValue
  | .obj _ fs, k =>
    match fs.find? (fun f => f.fst == k) with
    | some f => f.snd
    | none => .undefined
  | .arr _ es, k =>
    match (List.range es.length).find? (fun i => toString i == k) with
    | some i => es.getD i .undefined
    | none => .undefined
  | _, _ => .undefined

/-- Models Object.prototype.hasOwnProperty.call(v, k). -/
def jsHasOwn : JSValue → String → Bool
  | .obj _ fs, k => fs.any (fun f => f.fst == k)
  | .arr _ es, k => (List.range es.length).any (fun i => toString i == k)
  | _, _ => false

/-- Models shallowEqualObjects of the shallow-equal npm package (the
dependency imported by util.ts): identical references are equal, a falsy
operand (null here) makes the result false, otherwise the two values must
have the same number of own keys and strictly equal values at each key of
the first, each also an own key of the second. -/
def shallowEqualObjects (a b : JSValue) : Bool :=
  if strictEq a b then true
  else if !(jsTruthy a) || !(jsTruthy b) then false
  else
    let ak := jsKeys a
    let bk := jsKeys b
    if !(ak.length == bk.length) then false
    else ak.all (fun k => strictEq (jsGet a k) (jsGet b k) && jsHasOwn b k)

/-- Translation of optionCompare of src/unnamed/part_005 (also lines 36-46
of src/src/util.ts, identical there): two operands of typeof "object" are
compared with shallowEqualObjects, anything else with loose equality ==. -/
def optionCompare (opt1 opt2 : JSValue) : Bool :=
  if jsTypeof opt1 == typeObject && jsTypeof opt2 == typeObject then
    shallowEqualObjects opt1 opt2
  else
    looseEq opt1 opt2

def keyValue : String := "value"

def keyId : String := "id"

def keyKey : String := "key"

def keyLabel : String := "label"

/-- Translation of objectGetProperty of src/unnamed/part_005 lines 15-17:
the property value when the key is among Object.keys of the object,
undefined otherwise. -/
def objectGetProperty (obj : JSValue) (prop : String) : JSValue :=
  if (jsKeys obj).contains prop then jsGet obj prop else .undefined

/-- Models the JavaScript || operator on values: the first operand when it
is truthy, the second otherwise. -/
def jsOr (a b : JSValue) : JSValue := if jsTruthy a then a else b

/-- Translation of defaultValueFn of src/unnamed/part_005 lines 19-37:
undefined maps to undefined, strings to themselves; for a non-null object
the value is the || chain of the value, id and key properties, and the
result falls back to String(option) through ?? when that chain is null or
undefined. -/
def defaultValueFn (option : JSValue) : JSValue :=
  if isUndefined option then .undefined
  else if jsTypeof option == typeString then option
  else
    let value :=
      if jsTypeof option == typeObject && !(isNull option) then
        jsOr (jsOr (objectGetProperty option keyValue) (objectGetProperty option keyId))
          (objectGetProperty option keyKey)
      else .undefined
    if isNullish value then .str (jsToString option) else value

/-- Translation of defaultLabelFn of src/unnamed/part_005 lines 39-54:
undefined maps to undefined, strings to themselves; for a non-null object
the label property is used, and the result falls back to
defaultValueFn(option) through ?? when that label is null or undefined. -/
def defaultLabelFn (option : JSValue) : JSValue :=
  if isUndefined option then .undefined
  else if jsTypeof option == typeString then option
  else
    let label :=
      if jsTypeof option == typeObject && !(isNull option) then
        objectGetProperty option keyLabel
      else .undefined
    if isNullish label then defaultValueFn option else label

/-- The behaviour claim C1 states for the default value extractor,
transcribed from the spec sentence: a string is returned as is; a non-null
object returns the first present (by key existence) of its value, id and
key fields; anything else returns its string coercion. -/
def claimValueSpec (option : JSValue) : JSValue :=
  if jsTypeof option == typeString then option
  else if jsTypeof option == typeObject && !(isNull option) then
    if jsHasOwn option keyValue then jsGet option keyValue
    else if jsHasOwn option keyId then jsGet option keyId
    else if jsHasOwn option keyKey then jsGet option keyKey
    else .str (jsToString option)
  else .str (jsToString option)

/-- The amended behaviour of the default value extractor: undefined maps to
undefined; a string is returned as is; a non-null object returns the first
truthy of its value, id and key fields, or, when none is truthy, the key
field when that is present and neither null nor undefined, otherwise the
string coercion of the option; anything else returns its string
coercion. -/
def amendedValueSpec (option : JSValue) : JSValue :=
  if isUndefined option then .undefined
  else if jsTypeof option == typeString then option
  else if jsTypeof option == typeObject && !(isNull option) then
    if jsTruthy (objectGetProperty option keyValue) then objectGetProperty option keyValue
    else if jsTruthy (objectGetProperty option keyId) then objectGetProperty option keyId
    else if !(isNullish (objectGetProperty option keyKey)) then objectGetProperty option keyKey
    else .str (jsToString option)
  else .str (jsToString option)

/-- The behaviour claim C2 states for the default label extractor,
transcribed from the spec sentence: a string is returned as is; a non-null
object with a label field returns that field; anything else returns what
the default value extractor returns. -/
def claimLabelSpec (option : JSValue) : JSValue :=
  if jsTypeof option == typeString then option
  else if jsTypeof option == typeObject && !(isNull option) && jsHasOwn option keyLabel then
    jsGet option keyLabel
  else defaultValueFn option

/-- The amended behaviour of the default label extractor: undefined maps to
undefined; a string is returned as is; a non-null object whose label field
is neither null nor undefined returns that field; anything else returns
what the default value extractor returns. -/
def amendedLabelSpec (option : JSValue) : JSValue :=
  if isUndefined option then .undefined
  else if jsTypeof option == typeString then option
  else if jsTypeof option == typeObject && !(isNull option)
      && !(isNullish (objectGetProperty option keyLabel)) then
    objectGetProperty option keyLabel
  else defaultValueFn option

/-- The possible states of the multi prop of PaperSelect: absent from the
props object, present but undefined, false, true, or the string
"checkboxes" (the full set its TypeScript type admits). -/
inductive MultiProp where
  | absent
  | undefProp
  | fals
  | tru
  | checkboxes
deriving DecidableEq

/-- Models Object.hasOwn(props, 'multi'). -/
def MultiProp.hasOwn : MultiProp → Bool
  | .absent => false
  | _ => true

/-- Whether props.multi === false. -/
def MultiProp.isFalse : MultiProp → Bool
  | .fals => true
  | _ => false

/-- Whether props.multi === true. -/
def MultiProp.isTrue : MultiProp → Bool
  | .tru => true
  | _ => false

/-- Whether props.multi === 'checkboxes'. -/
def MultiProp.isCheckboxes : MultiProp → Bool
  | .checkboxes => true
  | _ => false

/-- Truthiness of the destructured multi binding (default false): only true
and 'checkboxes' are truthy, so an absent or undefined or false multi prop
selects the single-select branches. -/
def multiTruthy : MultiProp → Bool
  | .tru => true
  | .checkboxes => true
  | _ => false

/-- The props of PaperSelect that the selection logic reads (lines 254-277
of src/src/PaperSelect.tsx). value and defaultValue are JS values with
undefined meaning not supplied; options is the options array prop (none
when undefined); hasOnSelection records whether an onSelection callback was
supplied. -/
structure Props where
  multi : MultiProp
  value : JSValue
  defaultValue : JSValue
  options : Option (List JSValue)
  hasOnSelection : Bool

/-- The component state the claims are about: the uncontrolledValue and
menuVisible useState cells (lines 279-287 of src/src/PaperSelect.tsx),
plus a fresh-reference counter modelling heap allocation of the new arrays
the multi-select transitions build, so that strict equality on them stays
reference equality. -/
structure CState where
  uncontrolledValue : JSValue
  menuVisible : Bool
  nextRef : Nat

/-- Result of one state transition: whether a TypeError was thrown, the
resulting state, and the arguments of the onSelection invocations the
transition performed, in order. -/
structure StepResult where
  threw : Bool
  state : CState
  calls : List JSValue

/-- Line 284 of src/src/PaperSelect.tsx: the input is controlled exactly
when the value prop is not undefined. -/
def isControlled (p : Props) : Bool := !(isUndefined p.value)

/-- Line 285 of src/src/PaperSelect.tsx: the rendered value is the value
prop when controlled, the uncontrolledValue state otherwise. -/
def currentValue (p : Props) (st : CState) : JSValue :=
  if isControlled p then p.value else st.uncontrolledValue

/-- Translation of assertSingle, lines 196-209 of src/src/PaperSelect.tsx:
the props are valid for single-select when the multi key is absent or
strictly false and neither value nor defaultValue is a defined array. The
function returns the valid flag; the component throws a TypeError exactly
when it is false. -/
def assertSingle (p : Props) : Bool :=
  (!(p.multi.hasOwn) || p.multi.isFalse) &&
  (isUndefined p.value || !(isArray p.value)) &&
  (isUndefined p.defaultValue || !(isArray p.defaultValue))

/-- Translation of assertMulti, lines 212-226 of src/src/PaperSelect.tsx:
the props are valid for multi-select when the multi key is present and is
true or 'checkboxes', and value and defaultValue are each undefined or an
array. The function returns the valid flag; the component throws a
TypeError exactly when it is false. -/
def assertMulti (p : Props) : Bool :=
  p.multi.hasOwn &&
  (p.multi.isTrue || p.multi.isCheckboxes) &&
  (isUndefined p.value || isArray p.value) &&
  (isUndefined p.defaultValue || isArray p.defaultValue)

/-- How the multi branches view the current value when treating it as
T[] | undefined: null and undefined short-circuit the ?. calls, an array
exposes its elements, and any other value makes .some / .filter calls
throw (not a function). -/
inductive ArrView where
  | nullish
  | elems (es : List JSValue)
  | notArray

/-- Classifies a value for the (value as T[] | undefined)?.some and
?.filter calls of the multi-select branches. -/
def arrView : JSValue → ArrView
  | .undefined => .nullish
  | .null => .nullish
  | .arr _ es => .elems es
  | _ => .notArray

/-- The validity test of select, line 327 of src/src/PaperSelect.tsx:
options?.some((option) => optionCompare(option, selected)), false when the
options prop is undefined. -/
def selectValid (p : Props) (selected : JSValue) : Bool :=
  match p.options with
  | none => false
  | some opts => opts.any (fun option => optionCompare option selected)

/-- Translation of select, lines 321-360 of src/src/PaperSelect.tsx.
The transition returns early when optionCompare finds the option already
selected; otherwise, when the option passes the membership test, the multi
branch (after assertMulti) rebuilds the selection by filtering the master
options list by prior membership or equality with the selected option,
while the single branch (after assertSingle) stores the option and closes
the menu; uncontrolledValue is only written when the input is
uncontrolled, and onSelection receives the new selection. -/
def select (p : Props) (st : CState) (selected : JSValue) : StepResult :=
  let value := currentValue p st
  if optionCompare value selected then ⟨false, st, []⟩
  else if selectValid p selected then
    if multiTruthy p.multi then
      if !(assertMulti p) then ⟨true, st, []⟩
      else
        let opts := p.options.getD []
        match arrView value with
        | .notArray => ⟨true, st, []⟩
        | .nullish =>
          let filtered := opts.filter (fun option => optionCompare selected option)
          let newValue := JSValue.arr st.nextRef filtered
          ⟨false,
            ⟨if isControlled p then st.uncontrolledValue else newValue,
              st.menuVisible, st.nextRef + 1⟩,
            if p.hasOnSelection then [newValue] else []⟩
        | .elems vs =>
          let filtered := opts.filter
            (fun option => vs.any (fun val => optionCompare val option)
              || optionCompare selected option)
          let newValue := JSValue.arr st.nextRef filtered
          ⟨false,
            ⟨if isControlled p then st.uncontrolledValue else newValue,
              st.menuVisible, st.nextRef + 1⟩,
            if p.hasOnSelection then [newValue] else []⟩
    else
      if !(assertSingle p) then ⟨true, st, []⟩
      else
        ⟨false,
          ⟨if isControlled p then st.uncontrolledValue else selected,
            false, st.nextRef⟩,
          if p.hasOnSelection then [selected] else []⟩
  else ⟨false, st, []⟩

/-- Translation of deselect, lines 362-379 of src/src/PaperSelect.tsx. In
multi mode (after assertMulti) the current value is filtered to drop every
element optionCompare-equal to the deselected option (undefined stays
undefined through ?.), uncontrolledValue is written when uncontrolled, and
onSelection always receives the new value; in single mode the whole call is
a no-op. -/
def deselect (p : Props) (st : CState) (deselected : JSValue) : StepResult :=
  if multiTruthy p.multi then
    if !(assertMulti p) then ⟨true, st, []⟩
    else
      let value := currentValue p st
      match arrView value with
      | .notArray => ⟨true, st, []⟩
      | .nullish =>
        ⟨false,
          ⟨if isControlled p then st.uncontrolledValue else .undefined,
            st.menuVisible, st.nextRef⟩,
          if p.hasOnSelection then [.undefined] else []⟩
      | .elems vs =>
        let filtered := vs.filter (fun val => !(optionCompare val deselected))
        let newValue := JSValue.arr st.nextRef filtered
        ⟨false,
          ⟨if isControlled p then st.uncontrolledValue else newValue,
            st.menuVisible, st.nextRef + 1⟩,
          if p.hasOnSelection then [newValue] else []⟩
  else ⟨false, st, []⟩

/-- Translation of clearSelected, lines 305-319 of src/src/PaperSelect.tsx.
uncontrolledValue is cleared first (when uncontrolled); then the mode
assertion runs (throwing before onSelection and the menu close when it
fails); then onSelection(undefined) fires and the menu closes. -/
def clearSelected (p : Props) (st : CState) : StepResult :=
  let cleared := if isControlled p then st.uncontrolledValue else JSValue.undefined
  let ok := if multiTruthy p.multi then assertMulti p else assertSingle p
  if !ok then ⟨true, ⟨cleared, st.menuVisible, st.nextRef⟩, []⟩
  else
    ⟨false, ⟨cleared, false, st.nextRef⟩,
      if p.hasOnSelection then [JSValue.undefined] else []⟩

/-- A user interaction on the selection: a select or a deselect call. -/
inductive Op where
  | sel (o : JSValue)
  | desel (o : JSValue)

/-- Runs a sequence of select / deselect calls from a state, keeping the
state a transition leaves behind (also after a modelled throw). -/
def runOps (p : Props) (st : CState) : List Op → CState
  | [] => st
  | (Op.sel o) :: rest => runOps p (select p st o).state rest
  | (Op.desel o) :: rest => runOps p (deselect p st o).state rest

/-- The specification-level selection tracking of claim C6: one step of
selected-membership of a fixed option opt. A select of a member of the
options collection marks every option optionCompare-equal to it selected; a
deselect unmarks every option optionCompare-equal to its argument. -/
def stepMem (opts : List JSValue) (opt : JSValue) (b : Bool) : Op → Bool
  | .sel o =>
    if opts.any (fun option => optionCompare option o) then b || optionCompare o opt
    else b
  | .desel o => b && !(optionCompare opt o)

/-- Whether the option opt is a selected member after running the calls,
per the specification reading of claim C6. -/
def specMem (opts : List JSValue) (opt : JSValue) (ops : List Op) : Bool :=
  ops.foldl (stepMem opts opt) false

/-- The selection claim C6 predicts: the subsequence of the master options
collection consisting of its selected members. -/
def specSelection (opts : List JSValue) (ops : List Op) : List JSValue :=
  opts.filter (fun opt => specMem opts opt ops)

/-- The elements of the selection an uncontrolled multi-select state holds
(empty for undefined). -/
def selectionElems (st : CState) : List JSValue :=
  match st.uncontrolledValue with
  | .arr _ es => es
  | _ => []

/-- The shape disagreement claim C9 is about: with falsy multi an array
value or defaultValue, with truthy multi a defined non-array value or
defaultValue. -/
def shapesDisagree (p : Props) : Bool :=
  if multiTruthy p.multi then
    (!(isUndefined p.value) && !(isArray p.value))
      || (!(isUndefined p.defaultValue) && !(isArray p.defaultValue))
  else
    isArray p.value || isArray p.defaultValue

/-! Concrete fixtures used by witnesses and counterexamples. -/

def litX : String := "x"

def litY : String := "y"

def litZ : String := "z"

def litXY : String := "x,y"

def litA : String := "a"

def emptyStr : String := ""

/-- The option object with value '' and id 'x'. -/
def c1Input : JSValue := .obj 0 [(keyValue, .str emptyStr), (keyId, .str litX)]

/-- The option object with label null. -/
def c2Input : JSValue := .obj 0 [(keyLabel, .null)]

/-- Well-formed uncontrolled single-select props with options x and y and an
onSelection callback. -/
def singleProps : Props := ⟨.absent, .undefined, .undefined, some [.str litX, .str litY], true⟩

/-- Well-formed uncontrolled multi-select props with options x, y and z and
an onSelection callback. -/
def multiProps : Props := ⟨.tru, .undefined, .undefined, some [.str litX, .str litY, .str litZ], true⟩

/-- Uncontrolled multi-select props whose options contain the string that
is the comma join of the two others. -/
def commaProps : Props := ⟨.tru, .undefined, .undefined, some [.str litX, .str litY, .str litXY], true⟩

/-- Props whose multi key is present but undefined, with a scalar value:
the multi flag is falsy and the value is not an array, so the shapes
agree. -/
def undefMultiProps : Props := ⟨.undefProp, .str litA, .undefined, some [.str litA], false⟩

/-- Controlled single-select props (a defined scalar value prop). -/
def controlledProps : Props := ⟨.absent, .str litA, .undefined, some [.str litA, .str litX], true⟩

/-- The initial state: no uncontrolled selection, menu closed. -/
def startState : CState := ⟨.undefined, false, 0⟩

/-- select x, select y, then select the collision string comma-joining
them. -/
def commaOps : List Op := [.sel (.str litX), .sel (.str litY), .sel (.str litXY)]

/-- The sequence of the spec example: select z then select x. -/
def exampleOps : List Op := [.sel (.str litZ), .sel (.str litX)]

/-! Helper lemmas about the comparator. -/

theorem optionCompare_str_str (s t : String) :
    optionCompare (.str s) (.str t) = (s == t) := rfl

theorem optionCompare_undef_str (t : String) :
    optionCompare .undefined (.str t) = false := rfl

theorem optionCompare_arr_str (r : Nat) (vs : List JSValue) (t : String) :
    optionCompare (.arr r vs) (.str t) = (joinComma (arrStrings vs) == t) := rfl

theorem optionCompare_nan_right (c : JSValue) : optionCompare c .nan = false := by
  cases c <;> rfl

theorem optionCompare_refl (x : JSValue) (h : x ≠ .nan) : optionCompare x x = true := by
  cases x with
  | undefined => rfl
  | null => rfl
  | bool b => show (b == b) = true; simp
  | num n => show (n == n) = true; simp
  | nan => exact absurd rfl h
  | str s => show (s == s) = true; simp
  | obj r fs =>
    show shallowEqualObjects (.obj r fs) (.obj r fs) = true
    simp [shallowEqualObjects, strictEq, sameObject]
  | arr r es =>
    show shallowEqualObjects (.arr r es) (.arr r es) = true
    simp [shallowEqualObjects, strictEq, sameObject]

theorem arrStrings_length (l : List JSValue) : (arrStrings l).length = l.length := by
  induction l with
  | nil => rfl
  | cons v rest ih => cases v <;> simp [arrStrings, ih]

theorem jsTruthy_not_nullish (v : JSValue) (h : jsTruthy v = true) : isNullish v = false := by
  cases v <;> simp_all [jsTruthy, isNullish, isUndefined, isNull]

theorem typeObject_beq_typeString : (typeObject == typeString) = false := by decide

theorem typeObject_beq_typeObject : (typeObject == typeObject) = true := by decide

/-- The || chain followed by the ?? fallback equals the amended first-truthy
description. -/
theorem chain_if (gv gi gk x : JSValue) :
    (if isNullish (jsOr (jsOr gv gi) gk) then x else jsOr (jsOr gv gi) gk)
      = (if jsTruthy gv then gv
         else if jsTruthy gi then gi
         else if !(isNullish gk) then gk else x) := by
  by_cases hv : jsTruthy gv = true
  · simp [jsOr, hv, jsTruthy_not_nullish _ hv]
  · by_cases hi : jsTruthy gi = true
    · simp [jsOr, hv, hi, jsTruthy_not_nullish _ hi]
    · by_cases hk : isNullish gk = true <;>
        simp [jsOr, hv, hi, hk]

/-- Claim C1 (amended): the default value extractor maps undefined to
undefined and a string to itself; a non-null object yields the first truthy
of its value, id, key fields, then a present non-nullish key field, and
otherwise (also for every other kind of option) the option's string
coercion. -/
theorem defaultValueFn_truthy_chain (option : JSValue) :
    defaultValueFn option = amendedValueSpec option := by
  cases option with
  | undefined => rfl
  | null => rfl
  | bool b => rfl
  | num n => rfl
  | nan => rfl
  | str s => rfl
  | obj r fs => exact chain_if _ _ _ _
  | arr r es => exact chain_if _ _ _ _

/-- Claim C1 counterexample: on the option object with a present but empty
value field and an id field 'x', the extractor returns the id 'x', not the
first present field (the empty value string) the claim predicts. -/
theorem defaultValueFn_not_first_present :
    ¬(defaultValueFn c1Input = claimValueSpec c1Input) := by
  intro h
  have h2 : JSValue.str litX = JSValue.str emptyStr := h
  exact absurd (JSValue.str.inj h2) (by decide)

/-- Claim C2 (amended): the default label extractor maps undefined to
undefined and a string to itself; a non-null object whose label field is
neither null nor undefined yields that field; every other option yields
what the default value extractor returns for it. -/
theorem defaultLabelFn_nullish_fallback (option : JSValue) :
    defaultLabelFn option = amendedLabelSpec option := by
  cases option with
  | undefined => rfl
  | null => rfl
  | bool b => rfl
  | num n => rfl
  | nan => rfl
  | str s => rfl
  | obj r fs =>
    show (if isNullish (objectGetProperty (.obj r fs) keyLabel)
            then defaultValueFn (.obj r fs) else objectGetProperty (.obj r fs) keyLabel) = _
    by_cases hl : isNullish (objectGetProperty (.obj r fs) keyLabel) = true <;>
      simp [hl, amendedLabelSpec, jsTypeof, isUndefined, isNull,
        typeObject_beq_typeString, typeObject_beq_typeObject]
  | arr r es =>
    show (if isNullish (objectGetProperty (.arr r es) keyLabel)
            then defaultValueFn (.arr r es) else objectGetProperty (.arr r es) keyLabel) = _
    by_cases hl : isNullish (objectGetProperty (.arr r es) keyLabel) = true <;>
      simp [hl, amendedLabelSpec, jsTypeof, isUndefined, isNull,
        typeObject_beq_typeString, typeObject_beq_typeObject]

/-- Claim C2 counterexample: on the option object whose label field is
null, the extractor ignores the present label and falls through to the
value extractor, returning '[object Object]' instead of the null label the
claim predicts. -/
theorem defaultLabelFn_not_label_present :
    ¬(defaultLabelFn c2Input = claimLabelSpec c2Input) := by
  intro h
  have h2 : JSValue.str (jsToString c2Input) = JSValue.null := h
  exact JSValue.noConfusion h2

/-- Claim C3 (amended): the option comparator is reflexive for every value
other than NaN, equates undefined with undefined, compares two operands of
typeof "object" with the shallow field comparison and every other pair with
loose equality. -/
theorem optionCompare_spec :
    (∀ x : JSValue, x ≠ .nan → optionCompare x x = true) ∧
    optionCompare .undefined .undefined = true ∧
    (∀ x y : JSValue, jsTypeof x = typeObject → jsTypeof y = typeObject →
      optionCompare x y = shallowEqualObjects x y) ∧
    (∀ x y : JSValue, ¬(jsTypeof x = typeObject ∧ jsTypeof y = typeObject) →
      optionCompare x y = looseEq x y) := by
  refine ⟨optionCompare_refl, rfl, ?_, ?_⟩
  · intro x y hx hy
    simp [optionCompare, hx, hy]
  · intro x y h
    have : (jsTypeof x == typeObject && jsTypeof y == typeObject) = false := by
      rcases Decidable.not_and_iff_or_not.mp h with h1 | h1 <;> simp [h1]
    simp [optionCompare, this]

/-- Witness for the C3 theorem at concrete values: reflexivity at the
string 'a', and the branch characterizations at an object pair and at a
string pair. -/
theorem optionCompare_spec_witness :
    optionCompare (.str litA) (.str litA) = true ∧
    optionCompare (.obj 0 []) (.obj 1 []) = shallowEqualObjects (.obj 0 []) (.obj 1 []) ∧
    optionCompare (.str litA) (.str litX) = looseEq (.str litA) (.str litX) :=
  ⟨optionCompare_spec.1 (.str litA) (by intro h; exact JSValue.noConfusion h),
   optionCompare_spec.2.2.1 (.obj 0 []) (.obj 1 []) rfl rfl,
   optionCompare_spec.2.2.2 (.str litA) (.str litX)
     (by intro h; exact absurd h.1 (by decide))⟩

/-- Claim C3 counterexample: the comparator is not reflexive at NaN, since
loose equality never equates NaN with anything. -/
theorem optionCompare_nan_not_reflexive : optionCompare .nan .nan = false := rfl

theorem isArray_not_undef (v : JSValue) (h : isArray v = true) : isUndefined v = false := by
  cases v <;> simp_all [isArray, isUndefined]

/-- The threw flag of clearSelected is exactly the failure of the mode
assertion the call dispatches to. -/
theorem clearSelected_threw (p : Props) (st : CState) :
    (clearSelected p st).threw
      = !(if multiTruthy p.multi then assertMulti p else assertSingle p) := by
  simp only [clearSelected]
  split <;> split <;> simp_all

/-- Claim C4: selecting an option that is not optionCompare-equal to any
member of the current options collection (in particular when the options
prop is undefined) leaves the whole state unchanged, throws nothing and
invokes no callback, in every mode, controlled or not. -/
theorem select_nonmember_noop (p : Props) (st : CState) (o : JSValue)
    (h : ∀ opts, p.options = some opts → ∀ opt ∈ opts, optionCompare opt o = false) :
    select p st o = ⟨false, st, []⟩ := by
  have hv : selectValid p o = false := by
    unfold selectValid
    cases hop : p.options with
    | none => rfl
    | some opts =>
      simp only [List.any_eq_false]
      intro x hx
      simp [h opts hop x hx]
  by_cases he : optionCompare (currentValue p st) o = true
  · simp [select, he]
  · simp [select, he, hv]

/-- Witness for C4: selecting z when the options are x and y changes
nothing and fires no callback. -/
theorem select_nonmember_noop_witness :
    select singleProps startState (.str litZ) = ⟨false, startState, []⟩ :=
  select_nonmember_noop singleProps startState (.str litZ)
    (by
      intro opts hop opt hm
      have h1 : opts = [JSValue.str litX, JSValue.str litY] :=
        (Option.some.inj hop).symm
      subst h1
      rcases List.mem_cons.mp hm with h2 | h2
      · subst h2; rfl
      · rcases List.mem_cons.mp h2 with h3 | h3
        · subst h3; rfl
        · exact absurd h3 (List.not_mem_nil _))

/-- Claim C7: from any state, with well-formed props, an uncontrolled input
and a supplied callback, clearSelected sets the selection to undefined (not
an empty array, also in multi mode), closes the menu and invokes
onSelection(undefined) exactly once. -/
theorem clearSelected_clears (p : Props) (st : CState)
    (hctl : isControlled p = false)
    (hok : (if multiTruthy p.multi then assertMulti p else assertSingle p) = true)
    (hcb : p.hasOnSelection = true) :
    clearSelected p st = ⟨false, ⟨.undefined, false, st.nextRef⟩, [.undefined]⟩ := by
  simp [clearSelected, hctl, hok, hcb]

/-- Witness for C7: clearing a multi selection of x with the menu open. -/
theorem clearSelected_clears_witness :
    clearSelected multiProps ⟨.arr 0 [.str litX], true, 1⟩
      = ⟨false, ⟨.undefined, false, 1⟩, [.undefined]⟩ :=
  clearSelected_clears multiProps ⟨.arr 0 [.str litX], true, 1⟩ rfl rfl rfl

/-- Claim C10: when the input is controlled, none of select, deselect and
clearSelected writes the internal uncontrolled value, and the rendered
value is the external value prop. -/
theorem controlled_frame (p : Props) (st : CState) (o : JSValue)
    (h : isControlled p = true) :
    (select p st o).state.uncontrolledValue = st.uncontrolledValue ∧
    (deselect p st o).state.uncontrolledValue = st.uncontrolledValue ∧
    (clearSelected p st).state.uncontrolledValue = st.uncontrolledValue ∧
    currentValue p st = p.value := by
  refine ⟨?_, ?_, ?_, by simp [currentValue, h]⟩
  · simp only [select]
    split
    · rfl
    · split
      · split
        · split
          · rfl
          · split
            · rfl
            · simp [h]
            · simp [h]
        · split
          · rfl
          · simp [h]
      · rfl
  · simp only [deselect]
    split
    · split
      · rfl
      · split
        · rfl
        · simp [h]
        · simp [h]
    · rfl
  · simp only [clearSelected]
    split <;> split <;> simp [h]

/-- Witness for C10: a controlled single select keeps its internal value
across a select of x, a deselect of a and a clear. -/
theorem controlled_frame_witness :
    (select controlledProps startState (.str litX)).state.uncontrolledValue
        = startState.uncontrolledValue ∧
    (deselect controlledProps startState (.str litX)).state.uncontrolledValue
        = startState.uncontrolledValue ∧
    (clearSelected controlledProps startState).state.uncontrolledValue
        = startState.uncontrolledValue ∧
    currentValue controlledProps startState = controlledProps.value :=
  controlled_frame controlledProps startState (.str litX) rfl

/-- Claim C9 (amended): a disagreement between the truthiness of the multi
prop and the array-ness of value or defaultValue always makes the mode
assertion run by clearSelected throw the TypeError; with agreeing shapes no
TypeError is thrown, provided the multi key, when present, is false, true
or 'checkboxes' (a multi key that is present but undefined also throws). -/
theorem assert_shape_guard (p : Props) (st : CState) :
    (shapesDisagree p = true → (clearSelected p st).threw = true) ∧
    (shapesDisagree p = false → p.multi ≠ MultiProp.undefProp →
      (clearSelected p st).threw = false) := by
  constructor
  · intro hd
    rw [clearSelected_threw]
    cases hm : p.multi <;>
      simp_all [shapesDisagree, multiTruthy, assertSingle, assertMulti,
        MultiProp.hasOwn, MultiProp.isFalse, MultiProp.isTrue, MultiProp.isCheckboxes] <;>
      rcases hd with h | h <;>
      simp [h, isArray_not_undef _ h]
  · intro ha hne
    rw [clearSelected_threw]
    cases hm : p.multi <;>
      simp_all [shapesDisagree, multiTruthy, assertSingle, assertMulti,
        MultiProp.hasOwn, MultiProp.isFalse, MultiProp.isTrue, MultiProp.isCheckboxes]

/-- Witness for C9: disagreeing shapes (an array value without multi)
throw, and agreeing shapes (multi with an array value) do not. -/
theorem assert_shape_guard_witness :
    (clearSelected ⟨.absent, .arr 0 [], .undefined, none, false⟩ startState).threw = true ∧
    (clearSelected multiProps startState).threw = false :=
  ⟨(assert_shape_guard ⟨.absent, .arr 0 [], .undefined, none, false⟩ startState).1 rfl,
   (assert_shape_guard multiProps startState).2 rfl (by intro h; exact MultiProp.noConfusion h)⟩

/-- Claim C9 counterexample: a multi key that is present but undefined with
a scalar value has agreeing shapes (falsy multi, non-array value), yet the
component still throws the TypeError. -/
theorem assert_undef_multi_counterexample :
    shapesDisagree undefMultiProps = false ∧
    (clearSelected undefMultiProps startState).threw = true :=
  ⟨rfl, rfl⟩

/-- Claim C5: in single mode, uncontrolled, with valid props, a supplied
callback and an option a of the options collection that is not the current
selection, select(a) stores a, fires onSelection(a) once and closes the
menu, and an immediately repeated select(a) is a complete no-op: no state
change, no callback, menu left as the first call left it. -/
theorem select_twice_single (p : Props) (st : CState) (opts : List JSValue) (a : JSValue)
    (hm : multiTruthy p.multi = false)
    (hctl : isControlled p = false)
    (hok : assertSingle p = true)
    (hcb : p.hasOnSelection = true)
    (ho : p.options = some opts)
    (hmem : opts.any (fun c => optionCompare c a) = true)
    (hne : optionCompare st.uncontrolledValue a = false) :
    select p st a = ⟨false, ⟨a, false, st.nextRef⟩, [a]⟩ ∧
    select p ⟨a, false, st.nextRef⟩ a = ⟨false, ⟨a, false, st.nextRef⟩, []⟩ := by
  have hcv : currentValue p st = st.uncontrolledValue := by simp [currentValue, hctl]
  have hvalid : selectValid p a = true := by
    unfold selectValid
    rw [ho]
    exact hmem
  have hrefl : optionCompare a a = true := by
    rcases List.any_eq_true.mp hmem with ⟨c, hc, hcmp⟩
    apply optionCompare_refl
    intro h
    subst h
    rw [optionCompare_nan_right] at hcmp
    exact Bool.false_ne_true hcmp
  constructor
  · simp [select, hcv, hne, hvalid, hm, hok, hcb, hctl]
  · have hcv2 : currentValue p ⟨a, false, st.nextRef⟩ = a := by simp [currentValue, hctl]
    simp [select, hcv2, hrefl]

/-- Witness for C5: from an empty uncontrolled selection with the menu
open, selecting x twice fires the callback once and the second call changes
nothing. -/
theorem select_twice_single_witness :
    select singleProps ⟨.undefined, true, 0⟩ (.str litX)
        = ⟨false, ⟨.str litX, false, 0⟩, [.str litX]⟩ ∧
    select singleProps ⟨.str litX, false, 0⟩ (.str litX)
        = ⟨false, ⟨.str litX, false, 0⟩, []⟩ :=
  select_twice_single singleProps ⟨.undefined, true, 0⟩
    [.str litX, .str litY] (.str litX) rfl rfl rfl rfl rfl rfl rfl

/-- Claim C8 (amended): select never fires the callback when the option
compares equal to the current selection or fails the membership test, and
fires it exactly once on an accepted selection; deselect in single mode is
a complete no-op; but deselect in multi mode and clearSelected fire the
callback exactly once whenever the assertions pass and a callback is
supplied, even when they leave the selection unchanged. -/
theorem onSelection_calls_discipline :
    (∀ (p : Props) (st : CState) (o : JSValue),
      optionCompare (currentValue p st) o = true → (select p st o).calls = []) ∧
    (∀ (p : Props) (st : CState) (o : JSValue),
      selectValid p o = false → (select p st o).calls = []) ∧
    (∀ (p : Props) (st : CState) (o : JSValue),
      optionCompare (currentValue p st) o = false → selectValid p o = true →
      (if multiTruthy p.multi then assertMulti p else assertSingle p) = true →
      p.hasOnSelection = true →
      arrView (currentValue p st) ≠ ArrView.notArray →
      (select p st o).calls.length = 1) ∧
    (∀ (p : Props) (st : CState) (o : JSValue),
      multiTruthy p.multi = false → deselect p st o = ⟨false, st, []⟩) ∧
    (∀ (p : Props) (st : CState) (o : JSValue),
      multiTruthy p.multi = true → assertMulti p = true → p.hasOnSelection = true →
      arrView (currentValue p st) ≠ ArrView.notArray →
      (deselect p st o).calls.length = 1) ∧
    (∀ (p : Props) (st : CState),
      (if multiTruthy p.multi then assertMulti p else assertSingle p) = true →
      p.hasOnSelection = true → (clearSelected p st).calls = [JSValue.undefined]) := by
  refine ⟨?_, ?_, ?_, ?_, ?_, ?_⟩
  · intro p st o h
    simp [select, h]
  · intro p st o h
    by_cases he : optionCompare (currentValue p st) o = true <;> simp [select, he, h]
  · intro p st o he hv hok hcb hshape
    cases hmt : multiTruthy p.multi with
    | true =>
      simp only [hmt, if_true] at hok
      cases hav : arrView (currentValue p st) with
      | notArray => exact absurd hav hshape
      | nullish => simp [select, he, hv, hmt, hok, hcb, hav]
      | elems vs => simp [select, he, hv, hmt, hok, hcb, hav]
    | false =>
      simp only [hmt, Bool.false_eq_true, if_false] at hok
      simp [select, he, hv, hmt, hok, hcb]
  · intro p st o h
    simp [deselect, h]
  · intro p st o hmt hok hcb hshape
    cases hav : arrView (currentValue p st) with
    | notArray => exact absurd hav hshape
    | nullish => simp [deselect, hmt, hok, hcb, hav]
    | elems vs => simp [deselect, hmt, hok, hcb, hav]
  · intro p st hok hcb
    simp [clearSelected, hok, hcb]

/-- Witness for the C8 theorem: a multi deselect of an option that is not
selected still fires the callback once, and an accepted single select fires
it once. -/
theorem onSelection_calls_discipline_witness :
    (deselect multiProps ⟨.arr 0 [.str litX], false, 1⟩ (.str litZ)).calls.length = 1 ∧
    (select singleProps startState (.str litX)).calls.length = 1 :=
  ⟨onSelection_calls_discipline.2.2.2.2.1 multiProps ⟨.arr 0 [.str litX], false, 1⟩
      (.str litZ) rfl rfl rfl (by intro h; exact ArrView.noConfusion h),
   onSelection_calls_discipline.2.2.1 singleProps startState (.str litX)
      rfl rfl rfl rfl (by intro h; exact ArrView.noConfusion h)⟩

/-- Claim C8 counterexample: with the selection already undefined,
clearSelected is observably a no-op on the selection, yet it still invokes
onSelection(undefined): the calls list is not empty as the claim
predicts. -/
theorem clearSelected_noop_still_calls :
    startState.uncontrolledValue = JSValue.undefined ∧
    (clearSelected singleProps startState).calls = [JSValue.undefined] ∧
    ¬((clearSelected singleProps startState).calls = []) :=
  ⟨rfl, rfl, by
    intro h
    exact List.cons_ne_nil JSValue.undefined [] (h : [JSValue.undefined] = ([] : List JSValue))⟩

/-! Lemmas for the multi-selection invariant of claim C6. -/

theorem commaStr_data : commaStr.data = [','] := by decide

theorem comma_mem_join (a b : String) (l : List String) :
    ',' ∈ (joinComma (a :: b :: l)).data := by
  show ',' ∈ (a ++ commaStr ++ joinComma (b :: l)).data
  rw [String.data_append, String.data_append, commaStr_data]
  simp

/-- A comma join of stringified string options that equals a nonempty
comma-free string can only be a one-element list holding that string. -/
theorem join_strings_eq (vs : List JSValue) (t : String)
    (hs : ∀ v ∈ vs, ∃ s, v = JSValue.str s)
    (hj : joinComma (arrStrings vs) = t)
    (ht : t ≠ "")
    (hc : ',' ∉ t.data) :
    vs = [JSValue.str t] := by
  match vs, hs with
  | [], _ => exact absurd hj.symm ht
  | [v], hs =>
    obtain ⟨s, hv⟩ := hs v (List.mem_singleton.mpr rfl)
    subst hv
    have h2 : s = t := hj
    rw [h2]
  | v1 :: v2 :: rest, hs =>
    exfalso
    obtain ⟨s1, h1⟩ := hs v1 (by simp)
    obtain ⟨s2, h2⟩ := hs v2 (by simp)
    subst h1
    subst h2
    apply hc
    rw [← hj]
    exact comma_mem_join s1 s2 (arrStrings rest)

/-- Membership of an option string in the stored selection array agrees
with the selection predicate the array was filtered by. -/
theorem filter_any_eq (opts : List JSValue) (f : JSValue → Bool) (u : String)
    (hstr : ∀ o ∈ opts, ∃ s, o = JSValue.str s)
    (hu : JSValue.str u ∈ opts) :
    (opts.filter f).any (fun val => optionCompare val (JSValue.str u))
      = f (JSValue.str u) := by
  by_cases hf : f (JSValue.str u) = true
  · rw [hf]
    apply List.any_eq_true.mpr
    refine ⟨JSValue.str u, List.mem_filter.mpr ⟨hu, hf⟩, ?_⟩
    rw [optionCompare_str_str]
    simp
  · have hf0 : f (JSValue.str u) = false := by simpa using hf
    rw [hf0]
    simp only [List.any_eq_false]
    intro v hv0
    obtain ⟨hvo, hvf⟩ := List.mem_filter.mp hv0
    obtain ⟨w, hw⟩ := hstr v hvo
    subst hw
    rw [optionCompare_str_str]
    intro hwu
    have hwu2 : w = u := by simpa using hwu
    subst hwu2
    simp [hvf] at hf0

/-- One select step with a string argument preserves the multi-selection
invariant: the stored selection stays undefined (with no member selected)
or it is the options list filtered by the stepped selection predicate. -/
theorem select_str_step (p : Props) (opts : List JSValue) (st : CState)
    (f : JSValue → Bool) (t : String)
    (hm : multiTruthy p.multi = true)
    (hv : p.value = JSValue.undefined)
    (ha : assertMulti p = true)
    (ho : p.options = some opts)
    (hstr : ∀ o ∈ opts, ∃ s, o = JSValue.str s ∧ s ≠ "" ∧ ',' ∉ s.data)
    (hinv : (st.uncontrolledValue = JSValue.undefined ∧ ∀ o ∈ opts, f o = false)
      ∨ ∃ r, st.uncontrolledValue = JSValue.arr r (opts.filter f)) :
    ((select p st (.str t)).state.uncontrolledValue = JSValue.undefined
        ∧ ∀ o ∈ opts, stepMem opts o (f o) (.sel (.str t)) = false)
      ∨ ∃ r, (select p st (.str t)).state.uncontrolledValue
          = JSValue.arr r (opts.filter (fun o => stepMem opts o (f o) (.sel (.str t)))) := by
  have hctl : isControlled p = false := by simp [isControlled, hv, isUndefined]
  have hcv : currentValue p st = st.uncontrolledValue := by simp [currentValue, hctl]
  have hstr1 : ∀ o ∈ opts, ∃ s, o = JSValue.str s := fun o ho2 =>
    (hstr o ho2).elim (fun s hs => ⟨s, hs.1⟩)
  rcases hinv with ⟨hu, hf⟩ | ⟨r, hr⟩
  · have he : optionCompare (currentValue p st) (JSValue.str t) = false := by
      rw [hcv, hu]; exact optionCompare_undef_str t
    by_cases hval : selectValid p (JSValue.str t) = true
    · right
      refine ⟨st.nextRef, ?_⟩
      have hmemT : opts.any (fun option => optionCompare option (JSValue.str t)) = true := by
        have h2 := hval; unfold selectValid at h2; rw [ho] at h2; exact h2
      have hview : arrView (currentValue p st) = ArrView.nullish := by rw [hcv, hu]; rfl
      have hsel : (select p st (JSValue.str t)).state.uncontrolledValue
          = JSValue.arr st.nextRef
              (opts.filter (fun option => optionCompare (JSValue.str t) option)) := by
        simp [select, he, hval, hm, ha, hview, hctl, ho]
      rw [hsel]
      congr 1
      apply List.filter_congr
      intro o hoo
      simp [stepMem, hmemT, hf o hoo]
    · left
      have hval0 : selectValid p (JSValue.str t) = false := by simpa using hval
      have hmemF : opts.any (fun option => optionCompare option (JSValue.str t)) = false := by
        have h2 := hval0; unfold selectValid at h2; rw [ho] at h2; exact h2
      have hsel : (select p st (JSValue.str t)).state = st := by
        simp [select, he, hval0]
      rw [hsel]
      exact ⟨hu, fun o hoo => by simp [stepMem, hmemF, hf o hoo]⟩
  · have hview : arrView (currentValue p st) = ArrView.elems (opts.filter f) := by
      rw [hcv, hr]; rfl
    have hsf : ∀ v ∈ opts.filter f, ∃ s, v = JSValue.str s := fun v hv0 =>
      hstr1 v (List.mem_of_mem_filter hv0)
    by_cases hearly : optionCompare (currentValue p st) (JSValue.str t) = true
    · right
      refine ⟨r, ?_⟩
      have hsel : (select p st (JSValue.str t)).state = st := by simp [select, hearly]
      rw [hsel, hr]
      congr 1
      apply List.filter_congr
      intro o hoo
      by_cases hmemT : opts.any (fun option => optionCompare option (JSValue.str t)) = true
      · obtain ⟨c, hc, hcmp⟩ := List.any_eq_true.mp hmemT
        obtain ⟨s, hcs, hs0, hs1⟩ := hstr c hc
        subst hcs
        rw [optionCompare_str_str] at hcmp
        have hst : s = t := by simpa using hcmp
        subst hst
        rw [hcv, hr, optionCompare_arr_str] at hearly
        have hje : joinComma (arrStrings (opts.filter f)) = s := by simpa using hearly
        have hvs : opts.filter f = [JSValue.str s] := join_strings_eq _ _ hsf hje hs0 hs1
        have hmemvs : JSValue.str s ∈ opts.filter f := by
          rw [hvs]; exact List.mem_singleton.mpr rfl
        have hft : f (JSValue.str s) = true := (List.mem_filter.mp hmemvs).2
        simp only [stepMem, hmemT, if_true]
        obtain ⟨w, how, _, _⟩ := hstr o hoo
        subst how
        rw [optionCompare_str_str]
        by_cases hwt : w = s
        · subst hwt
          simp [hft]
        · have hne : s ≠ w := fun hh => hwt hh.symm
          simp [hne]
      · have hmemF : opts.any (fun option => optionCompare option (JSValue.str t)) = false := by
          simpa using hmemT
        simp [stepMem, hmemF]
    · have hearly0 : optionCompare (currentValue p st) (JSValue.str t) = false := by
        simpa using hearly
      by_cases hval : selectValid p (JSValue.str t) = true
      · right
        refine ⟨st.nextRef, ?_⟩
        have hmemT : opts.any (fun option => optionCompare option (JSValue.str t)) = true := by
          have h2 := hval; unfold selectValid at h2; rw [ho] at h2; exact h2
        have hsel : (select p st (JSValue.str t)).state.uncontrolledValue
            = JSValue.arr st.nextRef (opts.filter (fun option =>
                (opts.filter f).any (fun val => optionCompare val option)
                  || optionCompare (JSValue.str t) option)) := by
          simp [select, hearly0, hval, hm, ha, hview, hctl, ho]
        rw [hsel]
        congr 1
        apply List.filter_congr
        intro o hoo
        obtain ⟨w, how, _, _⟩ := hstr o hoo
        subst how
        rw [filter_any_eq opts f w hstr1 hoo]
        simp [stepMem, hmemT]
      · right
        refine ⟨r, ?_⟩
        have hval0 : selectValid p (JSValue.str t) = false := by simpa using hval
        have hmemF : opts.any (fun option => optionCompare option (JSValue.str t)) = false := by
          have h2 := hval0; unfold selectValid at h2; rw [ho] at h2; exact h2
        have hsel : (select p st (JSValue.str t)).state = st := by
          simp [select, hearly0, hval0]
        rw [hsel, hr]
        congr 1
        exact List.filter_congr (fun o hoo => by simp [stepMem, hmemF])

/-- One deselect step with a string argument preserves the multi-selection
invariant. -/
theorem deselect_str_step (p : Props) (opts : List JSValue) (st : CState)
    (f : JSValue → Bool) (t : String)
    (hm : multiTruthy p.multi = true)
    (hv : p.value = JSValue.undefined)
    (ha : assertMulti p = true)
    (hinv : (st.uncontrolledValue = JSValue.undefined ∧ ∀ o ∈ opts, f o = false)
      ∨ ∃ r, st.uncontrolledValue = JSValue.arr r (opts.filter f)) :
    ((deselect p st (.str t)).state.uncontrolledValue = JSValue.undefined
        ∧ ∀ o ∈ opts, stepMem opts o (f o) (.desel (.str t)) = false)
      ∨ ∃ r, (deselect p st (.str t)).state.uncontrolledValue
          = JSValue.arr r (opts.filter (fun o => stepMem opts o (f o) (.desel (.str t)))) := by
  have hctl : isControlled p = false := by simp [isControlled, hv, isUndefined]
  have hcv : currentValue p st = st.uncontrolledValue := by simp [currentValue, hctl]
  rcases hinv with ⟨hu, hf⟩ | ⟨r, hr⟩
  · left
    have hview : arrView (currentValue p st) = ArrView.nullish := by rw [hcv, hu]; rfl
    have hsel : (deselect p st (JSValue.str t)).state.uncontrolledValue = JSValue.undefined := by
      simp [deselect, hm, ha, hview, hctl]
    exact ⟨hsel, fun o hoo => by simp [stepMem, hf o hoo]⟩
  · right
    refine ⟨st.nextRef, ?_⟩
    have hview : arrView (currentValue p st) = ArrView.elems (opts.filter f) := by
      rw [hcv, hr]; rfl
    have hsel : (deselect p st (JSValue.str t)).state.uncontrolledValue
        = JSValue.arr st.nextRef ((opts.filter f).filter
            (fun val => !(optionCompare val (JSValue.str t)))) := by
      simp [deselect, hm, ha, hview, hctl]
    rw [hsel]
    congr 1
    rw [List.filter_filter]
    apply List.filter_congr
    intro o hoo
    simp [stepMem, Bool.and_comm]

/-- The multi-selection invariant holds along any run of select / deselect
calls with string arguments: the stored selection is undefined with no
member selected, or it is the options list filtered by the selected-member
predicate. -/
theorem runOps_invariant (p : Props) (opts : List JSValue)
    (hm : multiTruthy p.multi = true)
    (hv : p.value = JSValue.undefined)
    (ha : assertMulti p = true)
    (ho : p.options = some opts)
    (hstr : ∀ o ∈ opts, ∃ s, o = JSValue.str s ∧ s ≠ "" ∧ ',' ∉ s.data) :
    ∀ (ops : List Op),
      (∀ op ∈ ops, ∃ t, op = Op.sel (JSValue.str t) ∨ op = Op.desel (JSValue.str t)) →
      ∀ (st : CState) (f : JSValue → Bool),
      ((st.uncontrolledValue = JSValue.undefined ∧ ∀ o ∈ opts, f o = false)
        ∨ ∃ r, st.uncontrolledValue = JSValue.arr r (opts.filter f)) →
      (((runOps p st ops).uncontrolledValue = JSValue.undefined
          ∧ ∀ o ∈ opts, List.foldl (stepMem opts o) (f o) ops = false)
        ∨ ∃ r, (runOps p st ops).uncontrolledValue
            = JSValue.arr r (opts.filter (fun o => List.foldl (stepMem opts o) (f o) ops)))
  | [], _, st, f, hinv => by simpa using hinv
  | op :: rest, hops, st, f, hinv => by
    obtain ⟨t, hsel | hdesel⟩ := hops op (List.mem_cons_self op rest)
    · subst hsel
      exact runOps_invariant p opts hm hv ha ho hstr rest
        (fun op2 h2 => hops op2 (List.mem_cons_of_mem _ h2))
        (select p st (JSValue.str t)).state
        (fun o => stepMem opts o (f o) (Op.sel (JSValue.str t)))
        (select_str_step p opts st f t hm hv ha ho hstr hinv)
    · subst hdesel
      exact runOps_invariant p opts hm hv ha ho hstr rest
        (fun op2 h2 => hops op2 (List.mem_cons_of_mem _ h2))
        (deselect p st (JSValue.str t)).state
        (fun o => stepMem opts o (f o) (Op.desel (JSValue.str t)))
        (deselect_str_step p opts st f t hm hv ha hinv)

/-- Claim C6 (amended): in uncontrolled multi mode with valid props, with
options that are pairwise-unconstrained nonempty comma-free strings and
select / deselect calls carrying string arguments, the selection after any
sequence of calls is undefined (when no selection ever took hold) or the
subsequence of the master options collection consisting of exactly its
selected members, in the options collection's order regardless of call
order. -/
theorem multi_selection_options_order (p : Props) (opts : List JSValue)
    (st0 : CState) (ops : List Op)
    (hm : multiTruthy p.multi = true)
    (hv : p.value = JSValue.undefined)
    (ha : assertMulti p = true)
    (ho : p.options = some opts)
    (hstr : ∀ o ∈ opts, ∃ s, o = JSValue.str s ∧ s ≠ "" ∧ ',' ∉ s.data)
    (hops : ∀ op ∈ ops, ∃ t, op = Op.sel (JSValue.str t) ∨ op = Op.desel (JSValue.str t))
    (h0 : st0.uncontrolledValue = JSValue.undefined) :
    ((runOps p st0 ops).uncontrolledValue = JSValue.undefined
        ∧ specSelection opts ops = [])
      ∨ ∃ r, (runOps p st0 ops).uncontrolledValue
          = JSValue.arr r (specSelection opts ops) := by
  have h := runOps_invariant p opts hm hv ha ho hstr ops hops st0 (fun _ => false)
    (Or.inl ⟨h0, fun _ _ => rfl⟩)
  rcases h with ⟨h1, h2⟩ | ⟨r, hr⟩
  · left
    refine ⟨h1, ?_⟩
    apply List.filter_eq_nil_iff.mpr
    intro o hoo
    simp [specMem, h2 o hoo]
  · right
    exact ⟨r, hr⟩

/-- Witness for C6: with options x, y, z, selecting z then x yields the
selection x then z in the options order, and selecting x, selecting y then
deselecting x yields just y; the general theorem applies to the first
run. -/
theorem multi_selection_options_order_witness :
    (((runOps multiProps startState exampleOps).uncontrolledValue = JSValue.undefined
        ∧ specSelection [.str litX, .str litY, .str litZ] exampleOps = [])
      ∨ ∃ r, (runOps multiProps startState exampleOps).uncontrolledValue
          = JSValue.arr r (specSelection [.str litX, .str litY, .str litZ] exampleOps)) ∧
    selectionElems (runOps multiProps startState exampleOps) = [.str litX, .str litZ] ∧
    specSelection [.str litX, .str litY, .str litZ] exampleOps = [.str litX, .str litZ] ∧
    selectionElems (runOps multiProps startState
        [.sel (.str litX), .sel (.str litY), .desel (.str litX)]) = [.str litY] :=
  ⟨multi_selection_options_order multiProps [.str litX, .str litY, .str litZ]
      startState exampleOps rfl rfl rfl rfl
      (by
        intro o hoo
        rcases List.mem_cons.mp hoo with h1 | h1
        · exact ⟨litX, h1, by decide, by decide⟩
        rcases List.mem_cons.mp h1 with h2 | h2
        · exact ⟨litY, h2, by decide, by decide⟩
        rcases List.mem_cons.mp h2 with h3 | h3
        · exact ⟨litZ, h3, by decide, by decide⟩
        · exact absurd h3 (List.not_mem_nil _))
      (by
        intro op hop
        rcases List.mem_cons.mp hop with h1 | h1
        · exact ⟨litZ, Or.inl h1⟩
        rcases List.mem_cons.mp h1 with h2 | h2
        · exact ⟨litX, Or.inl h2⟩
        · exact absurd h2 (List.not_mem_nil _))
      rfl,
   rfl, rfl, rfl⟩

/-- Claim C6 counterexample: with options x, y and the collision string
'x,y', selecting x, then y, then 'x,y' leaves the machine selection at
[x, y] (the third select is swallowed by the already-selected check, whose
loose comparison stringifies the selection array to 'x,y'), while the
claimed subsequence of selected members is [x, y, 'x,y']. -/
theorem multi_selection_commajoin_counterexample :
    selectionElems (runOps commaProps startState commaOps)
        = [.str litX, .str litY] ∧
    specSelection [.str litX, .str litY, .str litXY] commaOps
        = [.str litX, .str litY, .str litXY] ∧
    ¬(selectionElems (runOps commaProps startState commaOps)
        = specSelection [.str litX, .str litY, .str litXY] commaOps) :=
  ⟨rfl, rfl, by
    intro h
    exact absurd (congrArg List.length h) (by decide)⟩

end PaperSelectModel
